import Mathlib

/-!
Shallow embedding of the statistical engine of the Nexus repository
(package `helpers`, file `probability.go`), together with theorems that
settle the specification claims about it.

Modelling conventions:

* IEEE-754 `float64` scalars are modelled by `Option ℚ`:  `some q` is a
  finite value carrying exact rational arithmetic, `none` is any
  non-finite value (NaN or an infinity).  Arithmetic propagates `none`,
  division by zero yields `none`, and ordered comparisons involving
  `none` are `false` — exactly as IEEE comparisons with NaN are.
* Transcendental library functions (`math.Log`, and `math.Sqrt` inside
  gonum's `stat.StdDev`) are abstracted as value oracles `ℚ → ℚ` on
  their finite domain; outside the domain (log of a non-positive number,
  sqrt of a negative number) the result is non-finite, which the
  lifted versions `logF`/`sqrtF` encode.
* External capabilities (the berkmancenter ADF test, gonum's QR
  least-squares solve and symmetric eigendecomposition) are abstracted
  as function parameters of the operations that call them.
* Go functions returning `error` are modelled with `Except String`,
  keeping the source's error message strings.
-/

namespace Nexus

/-- Decidable equality of `Except` results, used to evaluate the embedding
at concrete inputs. -/
instance {e a : Type} [DecidableEq e] [DecidableEq a] :
    DecidableEq (Except e a) := fun
  | .error x, .error y =>
    if h : x = y then .isTrue (congrArg _ h)
    else .isFalse (fun he => h (Except.error.inj he))
  | .error _, .ok _ => .isFalse (fun he => Except.noConfusion he)
  | .ok _, .error _ => .isFalse (fun he => Except.noConfusion he)
  | .ok x, .ok y =>
    if h : x = y then .isTrue (congrArg _ h)
    else .isFalse (fun he => h (Except.ok.inj he))

attribute [local semireducible] Rat.add Rat.mul Rat.inv Rat.sub

set_option maxRecDepth 40000

/-- The float64 scalar model: `some q` = finite value, `none` = non-finite. -/
abbrev F := Option ℚ

def addF : F → F → F
  | some a, some b => some (a + b)
  | _, _ => none

def subF : F → F → F
  | some a, some b => some (a - b)
  | _, _ => none

def mulF : F → F → F
  | some a, some b => some (a * b)
  | _, _ => none

def negF : F → F
  | some a => some (-a)
  | none => none

/-- Division; a zero divisor gives a non-finite result (NaN or ±Inf). -/
def divF : F → F → F
  | some a, some b => if b = 0 then none else some (a / b)
  | _, _ => none

/-- Float `>=`; comparisons with a non-finite NaN operand are false. -/
def geF : F → F → Bool
  | some a, some b => decide (b ≤ a)
  | _, _ => false

/-- Float `>`; comparisons with a non-finite NaN operand are false. -/
def gtF : F → F → Bool
  | some a, some b => decide (b < a)
  | _, _ => false

/-- Float `<` as used in the source's `stdDev > 0` guard (arguments swapped). -/
def ltF (x y : F) : Bool := gtF y x

/-- math.Min: NaN-propagating minimum. -/
def minF : F → F → F
  | some a, some b => some (min a b)
  | _, _ => none

/-- math.Max: NaN-propagating maximum. -/
def maxF : F → F → F
  | some a, some b => some (max a b)
  | _, _ => none

/-- Left-fold summation starting from 0, as Go's `+=` accumulation loops. -/
def sumF (xs : List F) : F := xs.foldl addF (some 0)

/-- A finite input series lifted into the scalar model. -/
def liftS (s : List ℚ) : List F := s.map some

/-- math.Sqrt through a value oracle `sq`; negative arguments give NaN. -/
def sqrtF (sq : ℚ → ℚ) : F → F
  | some q => if q < 0 then none else some (sq q)
  | none => none

/-- math.Log through a value oracle `lg`; non-positive arguments give a
non-finite result (NaN for negatives, -Inf at zero). -/
def logF (lg : ℚ → ℚ) : F → F
  | some q => if q ≤ 0 then none else some (lg q)
  | none => none

/-- gonum `stat.Mean` with nil weights: `Sum(x) / len(x)`. -/
def gmean (xs : List F) : F := divF (sumF xs) (some (xs.length : ℚ))

/-- gonum `stat.MeanVariance` with nil weights: the mean together with the
unbiased sample variance `Σ (x - mean)² / (n - 1)`. -/
def meanVarianceF (xs : List F) : F × F :=
  let m := gmean xs
  (m, divF (sumF (xs.map (fun v => mulF (subF v m) (subF v m))))
    (some ((xs.length : ℚ) - 1)))

/-- gonum `stat.Variance`. -/
def varianceF (xs : List F) : F := (meanVarianceF xs).2

/-- gonum `stat.StdDev`: square root of the unbiased sample variance. -/
def stdDevF (sq : ℚ → ℚ) (xs : List F) : F := sqrtF sq (varianceF xs)

/-- gonum `covarianceMeans` with nil weights: `Σ (x-xu)(y-yu) / (n-1)`,
where `n = len(x)`. -/
def covarianceMeansF (x y : List F) (xu yu : F) : F :=
  divF (sumF (List.zipWith (fun a b => mulF (subF a xu) (subF b yu)) x y))
    (some ((x.length : ℚ) - 1))

/-- gonum `stat.LinearRegression` with nil weights and `origin = false`:
`xu, xv := MeanVariance(x)` (here `gmean x` and `varianceF x`),
`yu := Mean(y)`, `cov := covarianceMeans(x, y, xu, yu)`,
`beta = cov / xv` and `alpha = yu - beta*xu`.
Note the return order: the intercept `alpha` comes FIRST. -/
def linRegrF (x y : List F) : F × F :=
  (subF (gmean y)
    (mulF (divF (covarianceMeansF x y (gmean x) (gmean y)) (varianceF x))
      (gmean x)),
   divF (covarianceMeansF x y (gmean x) (gmean y)) (varianceF x))

/-! ## Transcriptions of the repository's functions (helpers/probability.go) -/

/-- helpers.rangeOf: `max - min` over the list, both folds initialised with
the first element (the source indexes `series[0]`, so the empty case —
unreachable from its call sites — is modelled as non-finite). -/
def rangeOfF (s : List F) : F :=
  match s with
  | [] => none
  | h :: _ => subF (s.foldl maxF h) (s.foldl minF h)

/-- The cumulative-sum tail loop of CalcHurstExponent:
`cumulativeSum[j] = cumulativeSum[j-1] + deviations[j]`. -/
def cumSumFrom (acc : F) : List F → List F
  | [] => []
  | h :: t => addF acc h :: cumSumFrom (addF acc h) t

/-- The cumulative-sum array of CalcHurstExponent:
`cumulativeSum[0] = deviations[0]`, then the running sums. -/
def cumSumF : List F → List F
  | [] => []
  | h :: t => h :: cumSumFrom h t

/-- One window of CalcHurstExponent's inner loop: the rescaled range
`r / stdDev` of the mean-centred cumulative sum, kept only when the
source's guard `stdDev > 0` holds. -/
def hurstWindowRS (sq : ℚ → ℚ) (subset : List ℚ) : Option F :=
  let sub := liftS subset
  let mean := gmean sub
  let stdDev := stdDevF sq sub
  let deviations := sub.map (fun v => subF v mean)
  let r := rangeOfF (cumSumF deviations)
  if ltF (some 0) stdDev then some (divF r stdDev) else none

/-- CalcHurstExponent's inner loop: the surviving R/S values of the
non-overlapping windows of size `n` (`i = 0, n, 2n, …` while `i+n ≤ len`,
so exactly `len / n` windows, trailing remainder discarded). -/
def hurstRSValues (sq : ℚ → ℚ) (series : List ℚ) (n : ℕ) : List F :=
  (List.range (series.length / n)).filterMap
    (fun w => hurstWindowRS sq ((series.drop (w * n)).take n))

/-- One iteration of CalcHurstExponent's outer loop: the pair
`(log n, log mean R/S)` appended to `(logN, logRS)` when at least one
window of size `n` survived the zero-deviation guard. -/
def hurstPairAt (lg sq : ℚ → ℚ) (series : List ℚ) (n : ℕ) : Option (F × F) :=
  let rs := hurstRSValues sq series n
  if rs.isEmpty then none
  else some (logF lg (some (n : ℚ)), logF lg (gmean rs))

/-- The `(logN, logRS)` slices built by CalcHurstExponent's outer loop over
subset sizes `n = 2 .. len/2`. -/
def hurstPairs (lg sq : ℚ → ℚ) (series : List ℚ) : List F × List F :=
  ((List.range' 2 (series.length / 2 - 1)).filterMap
    (hurstPairAt lg sq series)).unzip

/-- helpers.CalcHurstExponent.  Faithful to the source: the final line is
`slope, _ := stat.LinearRegression(logN, logRS, nil, false)`, which binds
the FIRST return value of `stat.LinearRegression` — the intercept `alpha`
— to the variable `slope`, and that value is returned. -/
def CalcHurstExponent (lg sq : ℚ → ℚ) (series : List ℚ) : Except String F :=
  if series.length < 2 then
    .error "the length of the series must be at least 2"
  else
    let p := hurstPairs lg sq series
    .ok (linRegrF p.1 p.2).1

/-- helpers.CalcMeanReversionHalfLife: regresses the increments
`changes[i] = series[i+1] - series[i]` on the lagged levels
`x = series[:len-1]` (the source takes `_, beta :=`, i.e. the slope),
rejects `beta >= 0`, and otherwise returns `log(2) / (-beta)`. -/
def CalcMeanReversionHalfLife (lg : ℚ → ℚ) (series : List ℚ) :
    Except String F :=
  if series.length < 2 then
    .error "the length of the series must be at least 2"
  else
    let x := series.dropLast
    let y := series.drop 1
    let changes := List.zipWith (fun b a => b - a) y x
    let beta := (linRegrF (liftS x) (liftS changes)).2
    if geF beta (some 0) then
      .error "series does not exhibit mean reversion (theta >= 0)"
    else
      .ok (divF (logF lg (some 2)) (negF beta))

/-- helpers.CalcMean. -/
def CalcMean (series : List ℚ) : F := gmean (liftS series)

/-- helpers.CalcVariance (gonum `stat.Variance`: the unbiased sample
variance with an (n-1) divisor). -/
def CalcVariance (series : List ℚ) : F := varianceF (liftS series)

/-- helpers.CalcStandardDeviation. -/
def CalcStandardDeviation (sq : ℚ → ℚ) (series : List ℚ) : F :=
  stdDevF sq (liftS series)

/-- One index of helpers.CaclulateBollingerBands' loop: for `i ≥ window`
the pair `(mean + 2·stdDev, mean - 2·stdDev)` over the trailing window
`series[i-window : i]`; indices below the window keep the zero value the
Go slices were allocated with. -/
def bollingerBandAt (sq : ℚ → ℚ) (series : List ℚ) (window i : ℕ) : F × F :=
  if window ≤ i then
    (addF (gmean (liftS ((series.drop (i - window)).take window)))
      (mulF (some 2) (stdDevF sq (liftS ((series.drop (i - window)).take window)))),
     subF (gmean (liftS ((series.drop (i - window)).take window)))
      (mulF (some 2) (stdDevF sq (liftS ((series.drop (i - window)).take window)))))
  else (some 0, some 0)

/-- helpers.CaclulateBollingerBands (sic): guard `len(series) < window`,
then the per-index bands over the whole length of the series. -/
def CaclulateBollingerBands (sq : ℚ → ℚ) (series : List ℚ) (window : ℕ) :
    Except String (List F × List F) :=
  if series.length < window then
    .error "the length of the series must be at least the window size"
  else
    .ok (((List.range series.length).map (bollingerBandAt sq series window)).map
           Prod.fst,
         ((List.range series.length).map (bollingerBandAt sq series window)).map
           Prod.snd)

/-- helpers.SimpleLinearRegression: `stat.LinearRegression`, returning
`(alpha, beta)`. -/
def SimpleLinearRegression (x y : List ℚ) : F × F :=
  linRegrF (liftS x) (liftS y)

/-- helpers.MultipleLinearRegression.  The source body is
`return 0.0, 0.0` — an unimplemented stub, although its doc comment
promises a multiple regression of the dependent series on the
independent ones. -/
def MultipleLinearRegression (seriesY : List ℚ) (seriesX : List (List ℚ)) :
    ℚ × ℚ :=
  (0, 0)

/-- helpers.ExecCointegratedADFTest; the ADF test of the external
berkmancenter library is the abstract oracle `adf`.  The residual
subtracts the full fitted value `alpha + beta*x[i]`, intercept included. -/
def ExecCointegratedADFTest (adf : List F → ℤ → Bool × F)
    (seriesX seriesY : List ℚ) (lag : ℤ) : Bool × F × F × List F :=
  let ab := SimpleLinearRegression seriesX seriesY
  let residuals := List.zipWith
    (fun yv xv => subF (some yv) (addF ab.1 (mulF ab.2 (some xv))))
    seriesY seriesX
  let verdict := adf residuals lag
  (verdict.1, verdict.2, ab.2, residuals)

/-- The `make([]float64, nCols)` + `copy` of ExecJohansenTest's lagged-row
construction: truncate the row to `k` entries and zero-pad. -/
def fitRow (k : ℕ) (row : List ℚ) : List ℚ :=
  row.take k ++ List.replicate (k - row.length) 0

/-- Entry `(r, c)` of a rational matrix given as a list of rows; the
default 0 is never used on the rectangular inputs the source assumes. -/
def entry (m : List (List ℚ)) (r c : ℕ) : ℚ := (m.getD r []).getD c 0

/-- helpers.computeCovarianceMatrix: uncentred second moments of the
columns of its argument divided by `(rows - 1)`, where both dimensions
are taken from the argument itself (`residuals.Dims()`). -/
def computeCovarianceMatrix (residuals : List (List ℚ)) : List (List F) :=
  let nRows := residuals.length
  let nCols := (residuals.headD []).length
  (List.range nCols).map (fun i =>
    (List.range nCols).map (fun j =>
      divF
        (some (((List.range nRows).map
          (fun r => entry residuals r i * entry residuals r j)).sum))
        (some ((nRows : ℚ) - 1))))

/-- helpers.ExecJohansenTest.  gonum's QR least-squares solve and its
symmetric eigendecomposition are external capabilities, abstracted as
`solve` (returning the least-squares solution matrix that
`qr.SolveTo` stores in its destination, or an error) and `eigen`
(returning the eigenvalue list of `EigenSym`, or failure).  Note that
the matrix the source passes to computeCovarianceMatrix is the SOLVE
OUTPUT — the coefficient matrix — which the source calls `residuals`. -/
def ExecJohansenTest
    (solve : List (List ℚ) → List (List ℚ) → Except String (List (List ℚ)))
    (eigen : List (List F) → Option (List ℚ)) (lg : ℚ → ℚ)
    (series : List (List ℚ)) (lag : ℤ) : Except String (Bool × F) :=
  if series.length = 0 ∨ (series.headD []).length = 0 then
    .error "time series cannot be empty"
  else
    let nRows := series.length
    let nCols := (series.headD []).length
    if lag ≤ 0 ∨ (nRows : ℤ) ≤ lag then
      .error "lag must be greater than 0 and less than the number of rows"
    else
      let lagged := (series.take (nRows - lag.toNat)).map (fitRow nCols)
      let differenced := (List.range (nRows - 1)).map (fun i =>
        (List.range nCols).map (fun j => entry series (i + 1) j - entry series i j))
      match solve lagged differenced with
      | .error e => .error e
      | .ok sol =>
        match eigen (computeCovarianceMatrix sol) with
        | none => .error "eigenvalue decomposition failed"
        | some eigenvalues =>
          let traceStat := negF (eigenvalues.foldl
            (fun acc ev =>
              if 0 < ev then addF acc (logF lg (some (1 - ev))) else acc)
            (some 0))
          .ok (gtF traceStat (some (1541 / 100)), traceStat)

/-! ## Claim-side definitions

These follow the words of the specification claims (not the source); each
is compared against the transcribed code above. -/

/-- Claim-side: the textbook simple-OLS slope `Σ(x-x̄)(y-ȳ) / Σ(x-x̄)²`. -/
def olsSlopeF (x y : List F) : F :=
  divF
    (sumF (List.zipWith
      (fun a b => mulF (subF a (gmean x)) (subF b (gmean y))) x y))
    (sumF (x.map (fun v => mulF (subF v (gmean x)) (subF v (gmean x)))))

/-- Claim-side: the OLS intercept `ȳ - slope·x̄`. -/
def olsInterceptF (x y : List F) : F :=
  subF (gmean y) (mulF (olsSlopeF x y) (gmean x))

/-- Claim-side (C3): the OLS slope of the increments `Δy` on the lagged
levels `series[0..n-2]`. -/
def halfLifeBeta (s : List ℚ) : F :=
  olsSlopeF (liftS s.dropLast)
    (liftS (List.zipWith (fun b a => b - a) (s.drop 1) s.dropLast))

/-- Claim-side (C6, as stated): the population variance
`Σ(a-μ)² / n`, as an exact rational. -/
def popVarianceQ (s : List ℚ) : ℚ :=
  ((s.map (fun a =>
    (a - s.sum / (s.length : ℚ)) * (a - s.sum / (s.length : ℚ)))).sum)
    / (s.length : ℚ)

/-- Claim-side (C6, amended): the (n-1)-divisor sample variance, as an
exact rational. -/
def sampleVarianceQ (s : List ℚ) : ℚ :=
  ((s.map (fun a =>
    (a - s.sum / (s.length : ℚ)) * (a - s.sum / (s.length : ℚ)))).sum)
    / ((s.length : ℚ) - 1)

/-- Claim-side (C4, as stated): the residual spread with the intercept
discarded, `r[i] = y[i] - β·x[i]`. -/
def specResidualsNoIntercept (x y : List ℚ) : List F :=
  List.zipWith
    (fun yv xv =>
      subF (some yv) (mulF (olsSlopeF (liftS x) (liftS y)) (some xv)))
    y x

/-- Claim-side (C4, amended): the residual spread including the fitted
intercept, `r[i] = y[i] - (α + β·x[i])`. -/
def specResidualsWithIntercept (x y : List ℚ) : List F :=
  List.zipWith
    (fun yv xv =>
      subF (some yv)
        (addF (olsInterceptF (liftS x) (liftS y))
          (mulF (olsSlopeF (liftS x) (liftS y)) (some xv))))
    y x

/-- Exact rational matrix product (rows-of-lists convention), used to
check the least-squares instance of the Johansen claim. -/
def matMulQ (a b : List (List ℚ)) : List (List ℚ) :=
  a.map (fun row =>
    (List.range (b.headD []).length).map
      (fun j => ((List.range b.length).map
        (fun k => row.getD k 0 * entry b k j)).sum))

/-- Exact rational matrix difference, used to form the residual matrix
`B - A·X̂` the Johansen claim speaks about. -/
def matSubQ (a b : List (List ℚ)) : List (List ℚ) :=
  (List.range a.length).map (fun i =>
    (List.range (a.headD []).length).map (fun j => entry a i j - entry b i j))

/-! ## Concrete Johansen instance (claim C2)

Three observations of two series, lag 1.  The series are built so that
the lagged matrix `A` (its first two rows) is square and invertible and
the differenced matrix is `B = A·X̂` for the orthogonal-column matrix
`X̂ = (9999/10000)·[[3/5,-4/5],[4/5,3/5]]`; hence `X̂` is the exact (and
unique least-squares) solution of the regression and the residual matrix
`B - A·X̂` is zero. -/

def joSeries : List (List ℚ) :=
  [[1, 0],
   [79997 / 50000, -(9999 / 12500)],
   [4799839993 / 2500000000, -(6399120024 / 2500000000)]]

/-- The lagged matrix `A` the source builds from `joSeries` with lag 1. -/
def joLagged : List (List ℚ) := [[1, 0], [79997 / 50000, -(9999 / 12500)]]

/-- The differenced matrix `B` the source builds from `joSeries`. -/
def joDiff : List (List ℚ) :=
  [[29997 / 50000, -(9999 / 12500)],
   [799989993 / 2500000000, -(4399320024 / 2500000000)]]

/-- The least-squares solution `X̂` of `A·X = B` (exact: `A·X̂ = B`). -/
def joXhat : List (List ℚ) :=
  [[29997 / 50000, -(39996 / 50000)], [39996 / 50000, 29997 / 50000]]

/-- The uncentred (rows-1)-divisor moment matrix of `joXhat`, i.e. what
computeCovarianceMatrix returns on the solve output: `(9999/10000)²·I`. -/
def joCov : List (List F) :=
  [[some (99980001 / 100000000), some 0],
   [some 0, some (99980001 / 100000000)]]

/-- The same moment matrix of the zero residual matrix `B - A·X̂`. -/
def joZero : List (List F) := [[some 0, some 0], [some 0, some 0]]

/-- Model of gonum's QR least-squares solve on this instance: it returns
the exact solution `joXhat` of `joLagged · X = joDiff` (verified by
`matMulQ` in the theorem below). -/
def joSolve (a b : List (List ℚ)) : Except String (List (List ℚ)) :=
  if a = joLagged ∧ b = joDiff then .ok joXhat
  else .error "unexpected least-squares input"

/-- Model of gonum's EigenSym on the two diagonal matrices it is asked
about: the eigenvalues of `c·I` are `{c, c}`. -/
def joEigen (m : List (List F)) : Option (List ℚ) :=
  if m = joCov then some [99980001 / 100000000, 99980001 / 100000000]
  else if m = joZero then some [0, 0]
  else none

/-- Model of math.Log at the only finite positive argument reached on
this instance: `-8.517 ≈ ln(19999·10⁻⁸)`. -/
def joLog (q : ℚ) : ℚ :=
  if q = 19999 / 100000000 then -(8517 / 1000) else 0

/-! ## Shared lemmas -/

theorem divF_denom_zero (x : F) : divF x (some 0) = none := by
  cases x <;> simp [divF]

theorem divF_denom_none (x : F) : divF x none = none := by
  cases x <;> rfl

theorem divF_divF_cancel (a b : F) (k : ℚ) (hk : k ≠ 0) :
    divF (divF a (some k)) (divF b (some k)) = divF a b := by
  cases a with
  | none => cases b with
    | none => rfl
    | some q => by_cases hq : q = 0 <;> simp [divF, hk, hq]
  | some p => cases b with
    | none => simp [divF, hk]
    | some q =>
      by_cases hq : q = 0
      · simp [divF, hk, hq]
      · have h2 : q / k ≠ 0 := div_ne_zero hq hk
        have h3 : p / k / (q / k) = p / q := by
          field_simp
        simp only [divF, if_neg hk, if_neg hq, if_neg h2, h3]

theorem foldl_addF_lift (l : List ℚ) :
    ∀ q : ℚ, (liftS l).foldl addF (some q) = some (q + l.sum) := by
  induction l with
  | nil => intro q; simp [liftS]
  | cons a t ih =>
    intro q
    simp only [liftS, List.map_cons, List.foldl_cons, addF, List.sum_cons]
    rw [show (liftS t = t.map some) from rfl] at ih
    rw [ih (q + a), add_assoc]

theorem sumF_lift (l : List ℚ) : sumF (liftS l) = some l.sum := by
  simpa using foldl_addF_lift l 0

theorem gmean_lift (l : List ℚ) (h : l.length ≠ 0) :
    gmean (liftS l) = some (l.sum / (l.length : ℚ)) := by
  have hc : ((l.length : ℚ)) ≠ 0 := Nat.cast_ne_zero.mpr h
  rw [gmean, sumF_lift, show (liftS l).length = l.length from by simp [liftS]]
  simp [divF, hc]

theorem linRegrF_snd (x y : List F) : (linRegrF x y).2 = olsSlopeF x y := by
  by_cases hn : ((x.length : ℚ) - 1) = 0
  · have h1 : x.length = 1 := by
      have h2 : ((x.length : ℚ)) = 1 := by linarith
      exact_mod_cast h2
    obtain ⟨a, rfl⟩ := List.length_eq_one.mp h1
    have hxv : varianceF [a] = none := by
      simp only [varianceF, meanVarianceF, List.length_singleton,
        Nat.cast_one, sub_self, divF_denom_zero]
    cases a with
    | some p =>
      have hx : gmean [some p] = some p := by
        simp [gmean, sumF, addF, divF]
      have hU : sumF (List.map
          (fun v => mulF (subF v (gmean [some p])) (subF v (gmean [some p])))
          [some p]) = some 0 := by
        rw [hx]
        simp [sumF, subF, mulF, addF]
      simp only [linRegrF, olsSlopeF, hxv, divF_denom_none, hU, divF_denom_zero]
    | none =>
      have hU : sumF (List.map
          (fun v => mulF (subF v (gmean [none])) (subF v (gmean [none])))
          [(none : F)]) = none := by
        simp [sumF, subF, mulF, addF]
      simp only [linRegrF, olsSlopeF, hxv, divF_denom_none, hU]
  · simp only [linRegrF, olsSlopeF, varianceF, meanVarianceF, covarianceMeansF]
    exact divF_divF_cancel _ _ _ hn

theorem linRegrF_fst (x y : List F) : (linRegrF x y).1 = olsInterceptF x y := by
  rw [olsInterceptF, ← linRegrF_snd]
  rfl

theorem map_sqdev_lift (l : List ℚ) (μ : ℚ) :
    List.map (fun v => mulF (subF v (some μ)) (subF v (some μ))) (liftS l)
      = liftS (l.map (fun a => (a - μ) * (a - μ))) := by
  simp only [liftS, List.map_map]
  rfl

theorem CalcVariance_eq_sample (l : List ℚ) (h2 : 2 ≤ l.length) :
    CalcVariance l = some (sampleVarianceQ l) := by
  have h0 : l.length ≠ 0 := by omega
  have hd : ((l.length : ℚ) - 1) ≠ 0 := by
    have hq : (2 : ℚ) ≤ (l.length : ℚ) := by exact_mod_cast h2
    linarith
  simp only [CalcVariance, varianceF, meanVarianceF, gmean_lift l h0,
    map_sqdev_lift, sumF_lift]
  rw [show (liftS l).length = l.length from by simp [liftS]]
  simp [divF, hd, sampleVarianceQ]

theorem CalcVariance_single (a : ℚ) : CalcVariance [a] = none := by
  simp only [CalcVariance, varianceF, meanVarianceF, liftS, List.map_cons,
    List.map_nil, List.length_singleton, Nat.cast_one, sub_self,
    divF_denom_zero]

theorem sumF_replicate (w : ℕ) (c : ℚ) :
    sumF (List.replicate w (some c)) = some (w * c) := by
  have h : List.replicate w (some c) = liftS (List.replicate w c) := by
    simp [liftS]
  rw [h, sumF_lift, List.sum_replicate]
  simp [nsmul_eq_mul]

theorem gmean_replicate (w : ℕ) (c : ℚ) (hw : w ≠ 0) :
    gmean (List.replicate w (some c)) = some c := by
  have hc : ((w : ℚ)) ≠ 0 := Nat.cast_ne_zero.mpr hw
  rw [gmean, sumF_replicate, List.length_replicate]
  simp [divF, hc, mul_div_cancel_left₀]

theorem varianceF_replicate (w : ℕ) (c : ℚ) (h2 : 2 ≤ w) :
    varianceF (List.replicate w (some c)) = some 0 := by
  have hw : w ≠ 0 := by omega
  have hd : ((w : ℚ) - 1) ≠ 0 := by
    have hq : (2 : ℚ) ≤ (w : ℚ) := by exact_mod_cast h2
    linarith
  simp [varianceF, meanVarianceF, gmean_replicate w c hw, List.map_replicate,
    subF, mulF, sumF_replicate, List.length_replicate, divF, hd]

theorem constant_subset (s : List ℚ) (c : ℚ) (hc : ∀ x ∈ s, x = c) (w i : ℕ)
    (hwi : w ≤ i) (hil : i < s.length) :
    (s.drop (i - w)).take w = List.replicate w c := by
  have hlen : ((s.drop (i - w)).take w).length = w := by
    rw [List.length_take, List.length_drop, min_eq_left (by omega)]
  have hmem : ∀ b ∈ (s.drop (i - w)).take w, b = c := fun b hb =>
    hc b (List.drop_subset _ s (List.take_subset _ _ hb))
  exact List.eq_replicate_iff.mpr ⟨hlen, hmem⟩

theorem bollingerBandAt_const (sq : ℚ → ℚ) (s : List ℚ) (c : ℚ) (w i : ℕ)
    (hsq : sq 0 = 0) (h2 : 2 ≤ w) (hc : ∀ x ∈ s, x = c)
    (hwi : w ≤ i) (hil : i < s.length) :
    bollingerBandAt sq s w i = (some c, some c) := by
  have hw : w ≠ 0 := by omega
  rw [bollingerBandAt, if_pos hwi, constant_subset s c hc w i hwi hil,
    show liftS (List.replicate w c) = List.replicate w (some c) from by
      simp [liftS]]
  rw [stdDevF, varianceF_replicate w c h2, gmean_replicate w c hw]
  simp [sqrtF, hsq, addF, mulF, subF]

/-! ## Claim theorems -/

/-- C1 (code bug witnessed): on the length-8 series [0,1,3,2,5,4,8,6]
with identity log/sqrt oracles, CalcHurstExponent returns 1079/1680,
which is the OLS INTERCEPT of the (log n, log mean R/S) pairs it built,
while the OLS slope of those same pairs — what the claim (and the
source's own comment "return the calculate slope") prescribes — is
43/560.  The source binds the first return value of
stat.LinearRegression, which is alpha, to the variable `slope`. -/
theorem CalcHurstExponent_intercept_bug :
    CalcHurstExponent (fun q => q) (fun q => q) [0, 1, 3, 2, 5, 4, 8, 6]
        = .ok (some (1079 / 1680)) ∧
    olsInterceptF
        (hurstPairs (fun q => q) (fun q => q) [0, 1, 3, 2, 5, 4, 8, 6]).1
        (hurstPairs (fun q => q) (fun q => q) [0, 1, 3, 2, 5, 4, 8, 6]).2
        = some (1079 / 1680) ∧
    olsSlopeF
        (hurstPairs (fun q => q) (fun q => q) [0, 1, 3, 2, 5, 4, 8, 6]).1
        (hurstPairs (fun q => q) (fun q => q) [0, 1, 3, 2, 5, 4, 8, 6]).2
        = some (43 / 560) ∧
    ((1079 : ℚ) / 1680) ≠ 43 / 560 := by
  exact ⟨by decide, by decide, by decide, by decide⟩

/-- C2 (code bug witnessed): on the concrete 3×2 instance `joSeries` with
lag 1, the lagged matrix is invertible and `joXhat` solves the regression
exactly (second conjunct), so the residual matrix `B - A·X̂` is zero and
the claim's residual-covariance pipeline yields trace statistic 0 and
verdict `false` (last three conjuncts, using the source's own covariance
routine, eigen oracle and trace fold).  The code instead feeds the SOLVE
OUTPUT — the coefficient matrix, which it calls `residuals` — to
computeCovarianceMatrix, and returns trace 8517/500 ≈ 17.03 > 15.41 with
verdict `true` (first conjunct). -/
theorem ExecJohansenTest_covariance_of_solution :
    ExecJohansenTest joSolve joEigen joLog joSeries 1
        = .ok (true, some (8517 / 500)) ∧
    matMulQ joLagged joXhat = joDiff ∧
    matSubQ joDiff (matMulQ joLagged joXhat) = [[0, 0], [0, 0]] ∧
    computeCovarianceMatrix (matSubQ joDiff (matMulQ joLagged joXhat))
        = joZero ∧
    joEigen joZero = some [0, 0] ∧
    gtF (negF (List.foldl
        (fun acc ev =>
          if 0 < ev then addF acc (logF joLog (some (1 - ev))) else acc)
        (some 0) [0, 0])) (some (1541 / 100)) = false := by
  exact ⟨by decide, by decide, by decide, by decide, by decide, by decide⟩

/-- C3 (confirmed): for every series of length ≥ 2 and every log oracle,
CalcMeanReversionHalfLife fails with the NotMeanReverting error exactly
when the textbook OLS slope β of the increments on the lagged levels
satisfies β ≥ 0 (false for a non-finite β, as for IEEE NaN), and on
success returns log(2) / (-β). -/
theorem CalcMeanReversionHalfLife_spec (lg : ℚ → ℚ) (s : List ℚ)
    (h : 2 ≤ s.length) :
    (CalcMeanReversionHalfLife lg s =
        .error "series does not exhibit mean reversion (theta >= 0)"
      ↔ geF (halfLifeBeta s) (some 0) = true) ∧
    (geF (halfLifeBeta s) (some 0) = false →
      CalcMeanReversionHalfLife lg s =
        .ok (divF (logF lg (some 2)) (negF (halfLifeBeta s)))) := by
  have hlen : ¬ s.length < 2 := by omega
  have hb : (linRegrF (liftS s.dropLast)
      (liftS (List.zipWith (fun b a => b - a) (s.drop 1) s.dropLast))).2
      = halfLifeBeta s := by
    rw [halfLifeBeta]
    exact linRegrF_snd _ _
  simp only [CalcMeanReversionHalfLife, if_neg hlen, hb]
  cases hg : geF (halfLifeBeta s) (some 0) with
  | true => simp [hg]
  | false => simp [hg]

/-- Witness for C3 at the series [2,1,3] with the identity log oracle:
β = -3 < 0, so the call succeeds with half-life log(2)/3 = 2/3 under the
identity oracle. -/
theorem CalcMeanReversionHalfLife_spec_witness :
    2 ≤ ([2, 1, 3] : List ℚ).length ∧
      CalcMeanReversionHalfLife (fun q => q) [2, 1, 3] = .ok (some (2 / 3)) := by
  refine ⟨by decide, ?_⟩
  have h :=
    (CalcMeanReversionHalfLife_spec (fun q => q) [2, 1, 3] (by decide)).2
      (by decide)
  rw [h]
  decide

/-- C4 counterexample: at x = [0,1,2], y = [1,2,4] the OLS fit is
α = 5/6, β = 3/2; the residuals the code returns are
y[i] - (α + β·x[i]) = [1/6, -1/3, 1/6], not the intercept-free
y[i] - β·x[i] = [1, 1/2, 1] the claim states. -/
theorem ExecCointegratedADFTest_counterexample :
    (ExecCointegratedADFTest (fun _ _ => (false, some 0)) [0, 1, 2] [1, 2, 4]
        1).2.2.2 = [some (1 / 6), some (-(1 / 3)), some (1 / 6)] ∧
    specResidualsNoIntercept [0, 1, 2] [1, 2, 4]
        = [some 1, some (1 / 2), some 1] ∧
    ([some ((1 : ℚ) / 6), some (-(1 / 3)), some (1 / 6)] : List F)
        ≠ [some 1, some (1 / 2), some 1] := by
  exact ⟨by decide, by decide, by decide⟩

/-- C4 (amended, proved): for equal-length series the pairwise tester
returns the oracle's verdict and statistic on the residual spread, the
OLS hedge ratio β, and the residuals — but the residuals include the
fitted intercept: r[i] = y[i] - (α + β·x[i]). -/
theorem ExecCointegratedADFTest_spec (adf : List F → ℤ → Bool × F)
    (x y : List ℚ) (lag : ℤ) (hlen : x.length = y.length) :
    ExecCointegratedADFTest adf x y lag =
      ((adf (specResidualsWithIntercept x y) lag).1,
       (adf (specResidualsWithIntercept x y) lag).2,
       olsSlopeF (liftS x) (liftS y),
       specResidualsWithIntercept x y) := by
  have h1 : (SimpleLinearRegression x y).1 = olsInterceptF (liftS x) (liftS y) :=
    linRegrF_fst _ _
  have h2 : (SimpleLinearRegression x y).2 = olsSlopeF (liftS x) (liftS y) :=
    linRegrF_snd _ _
  simp only [ExecCointegratedADFTest, h1, h2, specResidualsWithIntercept]

/-- Witness for C4 at x = [0,1], y = [0,2] (α = 0, β = 2, residuals
[0,0]) with an oracle answering (true, 42). -/
theorem ExecCointegratedADFTest_spec_witness :
    ([0, 1] : List ℚ).length = ([0, 2] : List ℚ).length ∧
      ExecCointegratedADFTest (fun r _ => (decide (r.length = 2), some 42))
        [0, 1] [0, 2] 1 = (true, some 42, some 2, [some 0, some 0]) := by
  refine ⟨rfl, ?_⟩
  rw [ExecCointegratedADFTest_spec (fun r _ => (decide (r.length = 2), some 42))
    [0, 1] [0, 2] 1 rfl]
  decide

/-- C5 (confirmed): for every series of length < 2, both CalcHurstExponent
and CalcMeanReversionHalfLife fail with the InsufficientData error
("the length of the series must be at least 2") before any computation. -/
theorem insufficientData_guard (lg sq : ℚ → ℚ) (s : List ℚ)
    (h : s.length < 2) :
    CalcHurstExponent lg sq s =
        .error "the length of the series must be at least 2" ∧
    CalcMeanReversionHalfLife lg s =
        .error "the length of the series must be at least 2" := by
  constructor
  · simp only [CalcHurstExponent, if_pos h]
  · simp only [CalcMeanReversionHalfLife, if_pos h]

/-- Witness for C5 at the singleton series [9]. -/
theorem insufficientData_guard_witness :
    ([9] : List ℚ).length < 2 ∧
      CalcHurstExponent (fun q => q) (fun q => q) [9] =
        .error "the length of the series must be at least 2" ∧
      CalcMeanReversionHalfLife (fun q => q) [9] =
        .error "the length of the series must be at least 2" :=
  ⟨by decide,
   (insufficientData_guard (fun q => q) (fun q => q) [9] (by decide)).1,
   (insufficientData_guard (fun q => q) (fun q => q) [9] (by decide)).2⟩

/-- C6 counterexample: CalcVariance [0,2] = 2, the sample variance, while
the claimed population variance of [0,2] is 1; and for the length-1
series [5] the divisor n-1 is zero, so the result is non-finite
(Go: 0/0 = NaN), not the claimed 0. -/
theorem CalcVariance_population_counterexample :
    CalcVariance [0, 2] = some 2 ∧ popVarianceQ [0, 2] = 1 ∧
      ((2 : ℚ) ≠ 1) ∧ CalcVariance [5] = none ∧ ((none : F) ≠ some 0) := by
  exact ⟨by decide, by decide, by decide, by decide, by decide⟩

/-- C6 (amended, proved): CalcVariance returns the (n-1)-divisor sample
variance for every series of length ≥ 2, and a non-finite value (NaN in
Go) — not 0 — for every length-1 series. -/
theorem CalcVariance_sample_spec (s : List ℚ) :
    (2 ≤ s.length → CalcVariance s = some (sampleVarianceQ s)) ∧
    (s.length = 1 → CalcVariance s = none) := by
  constructor
  · exact fun h => CalcVariance_eq_sample s h
  · intro h1
    obtain ⟨a, rfl⟩ := List.length_eq_one.mp h1
    exact CalcVariance_single a

/-- Witness for C6 at [0,2] (sample variance 2) and [5] (non-finite). -/
theorem CalcVariance_sample_spec_witness :
    (2 ≤ ([0, 2] : List ℚ).length ∧ CalcVariance [0, 2] = some 2) ∧
    (([5] : List ℚ).length = 1 ∧ CalcVariance [5] = none) := by
  refine ⟨⟨by decide, ?_⟩, ⟨by decide, ?_⟩⟩
  · have h := (CalcVariance_sample_spec [0, 2]).1 (by decide)
    rw [h]
    decide
  · exact (CalcVariance_sample_spec [5]).2 (by decide)

/-- C7 (confirmed): for every solve/eigen/log oracle, ExecJohansenTest
fails with the EmptySeries error on an empty input matrix and with the
lag-range error whenever the lag lies outside 1 ≤ lag < numRows; the
result is the same for all oracles, i.e. no numerical computation is
performed in those cases. -/
theorem ExecJohansenTest_guards
    (solve : List (List ℚ) → List (List ℚ) → Except String (List (List ℚ)))
    (eigen : List (List F) → Option (List ℚ)) (lg : ℚ → ℚ)
    (series : List (List ℚ)) (lag : ℤ) :
    (series = [] ∨ series.headD [] = [] →
      ExecJohansenTest solve eigen lg series lag =
        .error "time series cannot be empty") ∧
    (series ≠ [] → series.headD [] ≠ [] →
      ¬ (1 ≤ lag ∧ lag < (series.length : ℤ)) →
      ExecJohansenTest solve eigen lg series lag =
        .error "lag must be greater than 0 and less than the number of rows") := by
  constructor
  · intro h
    have hb : series.length = 0 ∨ (series.headD []).length = 0 := by
      rcases h with h | h
      · exact Or.inl (by rw [h]; rfl)
      · exact Or.inr (by rw [h]; rfl)
    simp only [ExecJohansenTest]
    rw [if_pos hb]
  · intro h1 h2 h3
    have hb : ¬ (series.length = 0 ∨ (series.headD []).length = 0) := by
      push_neg
      exact ⟨fun hh => h1 (List.length_eq_zero.mp hh),
        fun hh => h2 (List.length_eq_zero.mp hh)⟩
    have hlag : lag ≤ 0 ∨ ((series.length : ℤ)) ≤ lag := by omega
    simp only [ExecJohansenTest]
    rw [if_neg hb, if_pos hlag]

/-- Witness for C7: the empty matrix, and the matrix [[1],[2]] with
lag 0, with arbitrary concrete oracles. -/
theorem ExecJohansenTest_guards_witness :
    ExecJohansenTest (fun _ _ => .error "s") (fun _ => none) (fun q => q)
        [] 1 = .error "time series cannot be empty" ∧
    ExecJohansenTest (fun _ _ => .error "s") (fun _ => none) (fun q => q)
        [[1], [2]] 0 =
      .error "lag must be greater than 0 and less than the number of rows" :=
  ⟨(ExecJohansenTest_guards (fun _ _ => .error "s") (fun _ => none)
      (fun q => q) [] 1).1 (Or.inl rfl),
   (ExecJohansenTest_guards (fun _ _ => .error "s") (fun _ => none)
      (fun q => q) [[1], [2]] 0).2 (by decide) (by decide) (by decide)⟩

/-- C8 counterexample: for the constant series [5,5] with window 1 the
call succeeds but upper[1] = lower[1] is non-finite (the window of size
1 has a 0/0 sample variance, NaN in Go), not the constant 5 the claim
states for every window ≥ 1. -/
theorem CaclulateBollingerBands_w1_counterexample :
    CaclulateBollingerBands (fun q => q) [5, 5] 1
        = .ok ([some 0, none], [some 0, none]) ∧
    (∀ x ∈ ([5, 5] : List ℚ), x = 5) ∧ ((none : F) ≠ some 5) := by
  exact ⟨by decide, by decide, by decide⟩

/-- C8 (amended, proved): the call fails with the InsufficientData error
when the series is shorter than the window; and for every window w ≥ 2
(rather than w ≥ 1), every constant series longer than w and every sqrt
oracle with sqrt 0 = 0, both bands equal the constant at every index
i ≥ w while indices below w keep the zero initial value of the
allocated slices. -/
theorem CaclulateBollingerBands_spec (sq : ℚ → ℚ) (s : List ℚ) (c : ℚ)
    (w : ℕ) :
    (s.length < w →
      CaclulateBollingerBands sq s w =
        .error "the length of the series must be at least the window size") ∧
    (sq 0 = 0 → 2 ≤ w → w < s.length → (∀ x ∈ s, x = c) →
      ∃ U L, CaclulateBollingerBands sq s w = .ok (U, L) ∧
        (∀ i, i < w → U[i]? = some (some 0) ∧ L[i]? = some (some 0)) ∧
        (∀ i, w ≤ i → i < s.length →
          U[i]? = some (some c) ∧ L[i]? = some (some c))) := by
  constructor
  · intro h
    simp only [CaclulateBollingerBands, if_pos h]
  · intro hsq h2 hwl hc
    have hnl : ¬ s.length < w := by omega
    refine ⟨((List.range s.length).map (bollingerBandAt sq s w)).map Prod.fst,
      ((List.range s.length).map (bollingerBandAt sq s w)).map Prod.snd,
      by simp only [CaclulateBollingerBands, if_neg hnl], ?_, ?_⟩
    · intro i hi
      have hil : i < s.length := by omega
      have hA : bollingerBandAt sq s w i = (some 0, some 0) := by
        rw [bollingerBandAt, if_neg (by omega : ¬ w ≤ i)]
      constructor <;>
        simp [List.getElem?_map, List.getElem?_range, hil, hA]
    · intro i hwi hil
      have hA : bollingerBandAt sq s w i = (some c, some c) :=
        bollingerBandAt_const sq s c w i hsq h2 hc hwi hil
      constructor <;>
        simp [List.getElem?_map, List.getElem?_range, hil, hA]

/-- Witness for C8: the constant series [7,7,7] with window 2 (bands hit
the constant at index 2), and the too-short series [7] with window 2. -/
theorem CaclulateBollingerBands_spec_witness :
    (∃ U L, CaclulateBollingerBands (fun q => q) [7, 7, 7] 2 = .ok (U, L) ∧
      U[2]? = some (some 7) ∧ L[2]? = some (some 7)) ∧
    CaclulateBollingerBands (fun q => q) [7] 2
        = .error "the length of the series must be at least the window size" := by
  constructor
  · obtain ⟨U, L, hok, _, hhi⟩ :=
      (CaclulateBollingerBands_spec (fun q => q) [7, 7, 7] 7 2).2 rfl
        (by decide) (by decide) (by decide)
    exact ⟨U, L, hok, (hhi 2 (by decide) (by decide)).1,
      (hhi 2 (by decide) (by decide)).2⟩
  · exact (CaclulateBollingerBands_spec (fun q => q) [7] 7 2).1 (by decide)

/-- C9 (code bug witnessed): MultipleLinearRegression is an unimplemented
stub — it returns (0, 0) for every input, never solves the normal
equations and has no RankDeficient failure path, although its own doc
comment promises a multiple regression. -/
theorem MultipleLinearRegression_stub (seriesY : List ℚ)
    (seriesX : List (List ℚ)) :
    MultipleLinearRegression seriesY seriesX = (0, 0) := rfl

/-- C10 (confirmed): for every series of length 2 or 3 and all oracles,
the subset-size loop of CalcHurstExponent never runs (⌊len/2⌋ < 2), the
log-log slices are empty, and the function returns a nil error paired
with a non-finite value (the regression over empty slices divides 0 by
0 — NaN in Go) instead of a reported failure. -/
theorem CalcHurstExponent_short_series (lg sq : ℚ → ℚ) (s : List ℚ)
    (h : s.length = 2 ∨ s.length = 3) :
    hurstPairs lg sq s = ([], []) ∧ CalcHurstExponent lg sq s = .ok none := by
  have hp : hurstPairs lg sq s = ([], []) := by
    have hd : s.length / 2 - 1 = 0 := by rcases h with h | h <;> rw [h]
    rw [hurstPairs, hd]
    rfl
  refine ⟨hp, ?_⟩
  have hlen : ¬ s.length < 2 := by rcases h with h | h <;> omega
  simp only [CalcHurstExponent, if_neg hlen, hp]
  rfl

/-- Witness for C10 at the series [1,2]. -/
theorem CalcHurstExponent_short_series_witness :
    (([1, 2] : List ℚ).length = 2 ∨ ([1, 2] : List ℚ).length = 3) ∧
      CalcHurstExponent (fun q => q) (fun q => q) [1, 2] = .ok none :=
  ⟨Or.inl rfl,
   (CalcHurstExponent_short_series (fun q => q) (fun q => q) [1, 2]
      (Or.inl rfl)).2⟩

end Nexus
